import Mathlib

/-
Verification of the reactive UI runtime (proxy-based state tracking,
autorun computations, batching, and the JSX reactive-child reconciler).

The Lean definitions below are shallow embeddings of the TypeScript source:
  * the reactivity engine  (src/unnamed/part_004, module `reactivity.ts`),
  * the proxy cache        (createReactiveProxy in the same module),
  * the instance tree      (src/packages/lib/src/component.ts),
  * the reactive-child update (the autorun body of appendChild in
    src/packages/lib/src/jsx.ts, with the region primitives of dom.ts),
  * the older revision of the reactive-child update (src/unnamed/part_001).

JavaScript runtime values are modelled as follows: tracked objects are
identified by natural-number ids, property keys by natural-number ids,
primitive property values by integers (identity `===` on primitives is
value equality), and effect/cleanup functions by natural-number ids.
WeakMap/Map are association lists (Map iteration order is insertion order,
which association lists preserve); Set is a duplicate-free list in
insertion order, except where noted (the pending-notification set stores
freshly allocated closures, which are pairwise distinct, so it is a plain
list that every add appends to).
-/

/-- Association-list lookup (models `Map.get` / `WeakMap.get`). -/
def assocGet {α β : Type} [DecidableEq α] : List (α × β) → α → Option β
  | [], _ => none
  | (k, v) :: rest, a => if k = a then some v else assocGet rest a

/-- Association-list update (models `Map.set` / `WeakMap.set`: overwrite in
place when the key is present, append otherwise — JS Map iteration order). -/
def assocSet {α β : Type} [DecidableEq α] : List (α × β) → α → β → List (α × β)
  | [], a, b => [(a, b)]
  | (k, v) :: rest, a, b =>
    if k = a then (k, b) :: rest else (k, v) :: assocSet rest a b

/-- Association-list removal (models `Map.delete` / `WeakMap.delete`). -/
def assocRemove {α β : Type} [DecidableEq α] : List (α × β) → α → List (α × β)
  | [], _ => []
  | (k, v) :: rest, a =>
    if k = a then rest else (k, v) :: assocRemove rest a

/-- A property slot: the pair (tracked object id, property key id). -/
structure PKey where
  obj : Nat
  pkey : Nat
deriving DecidableEq

/-- A snapshot of the raw data held by all tracked objects:
(object, property) ↦ primitive value. `none` models a JS `undefined` read. -/
def Store : Type := List (PKey × Int)

instance : DecidableEq Store := by
  unfold Store
  infer_instance

/--
State of the reactivity engine of `reactivity.ts` (src/unnamed/part_004):

* `batching`       — the module-level `BATCHING` flag;
* `pending`        — `PENDING_NOTIFICATIONS`. In the source this is a
  `Set<() => void>` to which `set` adds a *freshly allocated* closure
  `() => notifyListeners(obj, prop)` per write; distinct closures are never
  identical, so the set never deduplicates and is modelled as a list of the
  captured (object, property) pairs in insertion order;
* `changeCounter`  — `CHANGE_COUNTER`;
* `listeners`      — `propertyListeners`, the two-level
  WeakMap(object → Map(prop → Set of scopes)) flattened to one map keyed by
  the (object, property) pair (lookups agree); scope sets are
  duplicate-free lists in insertion order;
* `subs`           — `reactiveScopeSubscriptions`, scope ↦ its subscription
  set, deduplicated by the explicit (obj, prop) scan in the `get` trap;
* `cleanupSlot`    — each scope's `cleanup` field (absent = `undefined`);
* `runLog`         — instrumentation: scope ids in the order their `run`
  procedures were invoked;
* `cleanupLog`     — instrumentation: cleanup-function ids in the order
  they were invoked.
-/
structure RState where
  store : Store
  batching : Bool
  pending : List PKey
  changeCounter : Nat
  listeners : List (PKey × List Nat)
  subs : List (Nat × List PKey)
  cleanupSlot : List (Nat × Nat)
  runLog : List Nat
  cleanupLog : List Nat
deriving DecidableEq

/--
The behaviour of the effect function of each reactive scope, shallowly:
given the scope id and the current raw store, it yields the ordered list of
(object, property) reads the effect performs through the proxy's `get` trap
and the cleanup-function id it registers through `onCleanup` (if any).
Effects in this model read state but do not write it or create scopes,
which covers every program used in the claims.
-/
def Env : Type := Nat → Store → List PKey × Option Nat

/-- The scope set currently listening on a property (empty when the
two-level map has no entry). -/
def getListeners (s : RState) (p : PKey) : List Nat :=
  (assocGet s.listeners p).getD []

/-- The subscription set recorded for a scope. -/
def getSubs (s : RState) (sc : Nat) : List PKey :=
  (assocGet s.subs sc).getD []

/-- `get` trap, first half: `listeners.add(CURRENT_OBSERVATION)` —
a Set add, hence a no-op when the scope is already present. -/
def addListener (p : PKey) (sc : Nat) (s : RState) : RState :=
  let cur := getListeners s p
  if sc ∈ cur then s
  else { s with listeners := assocSet s.listeners p (cur ++ [sc]) }

/-- `get` trap, second half: record the subscription on the scope unless the
linear `found` scan already sees an (obj, prop) entry for it. -/
def addSubscription (sc : Nat) (p : PKey) (s : RState) : RState :=
  let cur := getSubs s sc
  if p ∈ cur then s
  else { s with subs := assocSet s.subs sc (cur ++ [p]) }

/-- One tracked property read while `CURRENT_OBSERVATION` is `sc`. -/
def trackRead (sc : Nat) (p : PKey) (s : RState) : RState :=
  addSubscription sc p (addListener p sc s)

/-- `scope.run()`: run the effect with `CURRENT_OBSERVATION` set to the
scope — every read subscribes, `onCleanup` stores the cleanup id. The
source does not clear the scope's previous subscriptions here (the
append-only revision of `autorun`). -/
def runScope (env : Env) (sc : Nat) (s : RState) : RState :=
  let er := env sc s.store
  let s1 := er.1.foldl (fun acc p => trackRead sc p acc) s
  let s2 :=
    match er.2 with
    | some c => { s1 with cleanupSlot := assocSet s1.cleanupSlot sc c }
    | none => s1
  { s2 with runLog := s2.runLog ++ [sc] }

/-- `scope.cleanup?.(); scope.cleanup = undefined` — the pre-re-run step
inside `notifyListeners`. -/
def invokeAndClearCleanup (sc : Nat) (s : RState) : RState :=
  match assocGet s.cleanupSlot sc with
  | some c =>
    { s with cleanupLog := s.cleanupLog ++ [c],
             cleanupSlot := assocRemove s.cleanupSlot sc }
  | none => s

/-- `notifyListeners(obj, prop)`: copy the listener set, then for each scope
run its cleanup, clear the cleanup, and re-run it. -/
def notifyListeners (env : Env) (p : PKey) (s : RState) : RState :=
  (getListeners s p).foldl (fun acc sc => runScope env sc (invokeAndClearCleanup sc acc)) s

/-- `flushNotifications()`: bump the change counter, take the pending list,
clear it, and run each queued notification. -/
def flushNotifications (env : Env) (s : RState) : RState :=
  let pend := s.pending
  let s1 := { s with changeCounter := s.changeCounter + 1, pending := [] }
  pend.foldl (fun acc p => notifyListeners env p acc) s1

/-- The proxy `set` trap: read the old value, write, and when the value
changed by `!==`, either queue a fresh notification closure (batching) or
bump the counter and notify immediately. -/
def setTrap (env : Env) (p : PKey) (v : Int) (s : RState) : RState :=
  let oldValue := assocGet s.store p
  let s1 := { s with store := assocSet s.store p v }
  if oldValue = some v then s1
  else if s1.batching then { s1 with pending := s1.pending ++ [p] }
  else notifyListeners env p { s1 with changeCounter := s1.changeCounter + 1 }

/-- `batch(fn)` for a body that returns normally; the body is the
state transformer obtained by running `fn`'s writes. -/
def batch (env : Env) (body : RState → RState) (s : RState) : RState :=
  let wasBatching := s.batching
  let s1 := body { s with batching := true }
  let s2 := { s1 with batching := wasBatching }
  if wasBatching then s2 else flushNotifications env s2

/-- `batch(fn)` for a body that may throw: the Bool in the body's result is
the thrown-exception flag. The `finally` block restores `BATCHING` and, when
outermost, flushes — in both the normal and the throwing case — after which
the exception (if any) propagates to the caller. -/
def batchTry (env : Env) (body : RState → RState × Bool) (s : RState) : RState × Bool :=
  let wasBatching := s.batching
  let r := body { s with batching := true }
  let s2 := { r.1 with batching := wasBatching }
  (if wasBatching then s2 else flushNotifications env s2, r.2)

/-- A straight-line batch body: a sequence of proxied property writes. -/
def runWrites (env : Env) (ws : List (PKey × Int)) (s : RState) : RState :=
  ws.foldl (fun acc w => setTrap env w.1 w.2 acc) s

/-- `autorun(effect)`: build the scope and run it once immediately. -/
def autorunStart (env : Env) (sc : Nat) (s : RState) : RState :=
  runScope env sc s

/-- `clearReactiveScopeSubscriptions`: delete the scope from the listener
set of every recorded subscription, then drop its subscription set. -/
def clearScopeSubscriptions (sc : Nat) (s : RState) : RState :=
  let s1 := (getSubs s sc).foldl
    (fun acc p =>
      match assocGet acc.listeners p with
      | some l => { acc with listeners := assocSet acc.listeners p (l.filter (fun x => x ≠ sc)) }
      | none => acc) s
  { s1 with subs := assocRemove s1.subs sc }

/-- The disposer closure returned by `autorun`: invoke `scope.cleanup?.()`
— note that the slot is *not* reset to `undefined` here — then clear the
scope's subscriptions. -/
def autorunDispose (sc : Nat) (s : RState) : RState :=
  let s1 :=
    match assocGet s.cleanupSlot sc with
    | some c => { s with cleanupLog := s.cleanupLog ++ [c] }
    | none => s
  clearScopeSubscriptions sc s1

/-- A JS value: primitive or (raw, unwrapped) object reference. -/
inductive JSVal
  | prim (v : Int)
  | obj (o : Nat)
deriving DecidableEq

/-- The proxy cache of `reactivity.ts`: `proxyCache` maps a raw object to
the proxy already built for it; `nextProxy` allocates proxy identities. -/
structure PCache where
  cache : List (Nat × Nat)
  nextProxy : Nat
deriving DecidableEq

/-- `createReactiveProxy(target)`: return the cached proxy if one exists,
else build a fresh proxy and record it in the cache before returning. -/
def createReactiveProxy (target : Nat) (s : PCache) : Nat × PCache :=
  match assocGet s.cache target with
  | some p => (p, s)
  | none =>
    (s.nextProxy,
     { cache := assocSet s.cache target s.nextProxy, nextProxy := s.nextProxy + 1 })

/-- `createState(initial)` is exactly `createReactiveProxy(initial)`. -/
def createState (target : Nat) (s : PCache) : Nat × PCache :=
  createReactiveProxy target s

/-- The value-returning path of the proxy `get` trap: `Reflect.get`, then
`createReactiveProxy(value)` when the value is an object, the raw value
otherwise. (`heap` is the read-only raw-object graph: object id and
property id to stored value; the dependency-tracking half of the trap acts
on the listener state modelled separately in `RState` and does not touch
the proxy cache.) -/
def getTrapValue (heap : Nat → Nat → Option JSVal) (o p : Nat) (s : PCache) :
    Option JSVal × PCache :=
  match heap o p with
  | some (JSVal.obj n) =>
    let r := createReactiveProxy n s
    (some (JSVal.obj r.1), r.2)
  | some (JSVal.prim v) => (some (JSVal.prim v), s)
  | none => (none, s)

/-- A concrete effect environment: scope 0 unconditionally reads
properties (0,0) and (0,1); no other scopes exist. -/
def envBoth : Env := fun sc _ =>
  if sc = 0 then ([⟨0, 0⟩, ⟨0, 1⟩], none) else ([], none)

/-- Fresh engine state over an initial raw store (module load time). -/
def rstateInit (st : Store) : RState :=
  { store := st, batching := false, pending := [], changeCounter := 0,
    listeners := [], subs := [], cleanupSlot := [], runLog := [], cleanupLog := [] }

/-- State after `autorun` creates scope 0 over `envBoth` (the scope has run
once and is subscribed to (0,0) and (0,1)). -/
def c3start : RState := autorunStart envBoth 0 (rstateInit [(⟨0, 0⟩, 0), (⟨0, 1⟩, 0)])

/-- Effect environment with a conditional read: scope 0 always reads (0,0)
and reads (0,1) only while the stored value of (0,0) is 1. -/
def envCond : Env := fun sc st =>
  if sc = 0 then
    (if assocGet st ⟨0, 0⟩ = some 1 then [⟨0, 0⟩, ⟨0, 1⟩] else [⟨0, 0⟩], none)
  else ([], none)

/-- After `autorun`: the initial run reads both properties. -/
def condRunA : RState := autorunStart envCond 0 (rstateInit [(⟨0, 0⟩, 1), (⟨0, 1⟩, 5)])

/-- After `state[0].p0 = 0`: the re-run takes the other branch and reads
only (0,0). -/
def condRunB : RState := setTrap envCond ⟨0, 0⟩ 0 condRunA

/-- After `state[0].p1 = 6`: a write to the property that the last run no
longer read. -/
def condRunC : RState := setTrap envCond ⟨0, 1⟩ 6 condRunB

/-- A batch body that performs the given writes and then throws. -/
def bodyWritesThenThrow (env : Env) (ws : List (PKey × Int)) (s : RState) : RState × Bool :=
  (runWrites env ws s, true)

/-- A batch body that performs the given writes and returns normally. -/
def bodyWritesNoThrow (env : Env) (ws : List (PKey × Int)) (s : RState) : RState × Bool :=
  (runWrites env ws s, false)

/-- Region operations performed through the region's own interface
(`clearContent` / `insertBeforeRef` of `createRegion` in dom.ts); direct
`parentNode.removeChild` / `parentNode.insertBefore` calls made by the
keyed diff are not region operations and are not traced. -/
inductive ROp
  | clearContentOp
  | insertOp (n : Nat)
deriving DecidableEq

/-- A parent reference of an instance: another `ReactiveComponent`, or the
`ReactiveChild` whose update is under consideration. -/
inductive PRef
  | comp (i : Nat)
  | rchild
deriving DecidableEq

/-- One `ReactiveComponent` record (component.ts): `cleanups` and
`autoDisposals` hold ids of the registered callbacks; `mountArmed` is true
while `mountCallbacks` is non-empty (they are cleared after the first
`callMountCallbacks` and on dispose). -/
structure InstSt where
  parent : Option PRef
  children : List Nat
  cleanups : List Nat
  autoDisposals : List Nat
  domRoot : Option Nat
  disposed : Bool
  mountArmed : Bool
deriving DecidableEq

/--
State for the reactive-child update of jsx.ts `appendChild`:

* `insts`      — the arena of `ReactiveComponent` instances by id;
* `rcChildren` — `reactiveChild.children` (instance ids, insertion order);
* `contents`   — the DOM nodes strictly between the region's start and end
  anchors, in document order (node ids; the end anchor is the next sibling
  of the last entry);
* `nodeKey`    — the `__key` expando: node id ↦ key (absent = no key);
* `nextInst` / `nextNode` — allocators for fresh instances / DOM nodes;
* `mountLog` / `cleanupRunLog` / `autoDisposeLog` — instrumentation logs of
  mount-callback firings, user-cleanup runs and autorun-disposer runs;
* `regionOps`  — trace of region-interface calls.
-/
structure JState where
  insts : List (Nat × InstSt)
  rcChildren : List Nat
  contents : List Nat
  nodeKey : List (Nat × Nat)
  nextInst : Nat
  nextNode : Nat
  mountLog : List Nat
  cleanupRunLog : List Nat
  autoDisposeLog : List Nat
  regionOps : List ROp
deriving DecidableEq

def getInst (s : JState) (i : Nat) : Option InstSt := assocGet s.insts i

def setInst (s : JState) (i : Nat) (inst : InstSt) : JState :=
  { s with insts := assocSet s.insts i inst }

/-- `region.clearContent()`: remove every node between the anchors. -/
def regionClearContent (s : JState) : JState :=
  { s with contents := [], regionOps := s.regionOps ++ [ROp.clearContentOp] }

/-- Insert `n` immediately before `ref` (`none` = the end anchor, hence at
the back of the contents list). -/
def insertBeforeList (n : Nat) (ref : Option Nat) : List Nat → List Nat
  | [] => [n]
  | x :: xs =>
    match ref with
    | some r => if x = r then n :: x :: xs else x :: insertBeforeList n (some r) xs
    | none => x :: insertBeforeList n none xs

/-- DOM `insertBefore`: an already-attached node is moved, so it is first
detached from the contents and then inserted before `ref`. -/
def domInsertBefore (n : Nat) (ref : Option Nat) (s : JState) : JState :=
  { s with contents := insertBeforeList n ref (s.contents.filter (fun x => x ≠ n)) }

/-- `region.insertBeforeRef(node, ref)` — logged as a region operation. -/
def regionInsertBeforeRef (n : Nat) (ref : Option Nat) (s : JState) : JState :=
  let s1 := domInsertBefore n ref s
  { s1 with regionOps := s1.regionOps ++ [ROp.insertOp n] }

/-- `node.parentNode?.removeChild(node)` for a node inside the region
(no-op when the node is not attached there). -/
def domRemoveNode (n : Nat) (s : JState) : JState :=
  { s with contents := s.contents.filter (fun x => x ≠ n) }

/-- `if (this.domRoot && this.domRoot.parentNode) removeChild(this.domRoot)`
during dispose: detach the DOM root when it is attached. -/
def detachDomRoot (o : Option Nat) (s : JState) : JState :=
  match o with
  | some n => if n ∈ s.contents then domRemoveNode n s else s
  | none => s

/-- `this.parent?.children.delete(this)` during dispose. -/
def removeChildFromParent (pr : Option PRef) (i : Nat) (s : JState) : JState :=
  match pr with
  | some (PRef.comp j) =>
    match getInst s j with
    | some pj => setInst s j { pj with children := pj.children.filter (fun x => x ≠ i) }
    | none => s
  | some PRef.rchild => { s with rcChildren := s.rcChildren.filter (fun x => x ≠ i) }
  | none => s

/--
`ReactiveComponent.dispose()` (component.ts): no-op when already disposed;
otherwise mark disposed, dispose all children depth-first (each child's own
dispose deletes it from this instance's children set, which a JS `for..of`
over the live Set tolerates — iterating the snapshot list is observably
equal), clear the children set, run the user cleanups, run the
reactive-attribute disposers, unregister from the parent, detach the DOM
root when it is attached, and clear all fields. `fuel` bounds the
recursion depth; every use passes at least the size of the instance arena,
which dominates the child-chain depth of any tree-shaped state.
-/
def disposeInst : Nat → Nat → JState → JState
  | 0, _, s => s
  | fuel + 1, i, s =>
    match getInst s i with
    | none => s
    | some inst =>
      if inst.disposed then s
      else
        let s1 := setInst s i { inst with disposed := true }
        let s2 := inst.children.foldl (fun acc c => disposeInst fuel c acc) s1
        match getInst s2 i with
        | none => s2
        | some cur =>
          let s3 := setInst s2 i { cur with children := [] }
          let s4 := { s3 with cleanupRunLog := s3.cleanupRunLog ++ cur.cleanups }
          let s5 := { s4 with autoDisposeLog := s4.autoDisposeLog ++ cur.autoDisposals }
          let s6 := removeChildFromParent cur.parent i s5
          let s7 := detachDomRoot cur.domRoot s6
          match getInst s7 i with
          | none => s7
          | some fin =>
            setInst s7 i
              { fin with children := [], cleanups := [], autoDisposals := [],
                         mountArmed := false, domRoot := none, parent := none }

/-- `callMountCallbacks()`: fire the deferred mount callbacks once, then
clear the list so a second call fires nothing. -/
def callMount (i : Nat) (s : JState) : JState :=
  match getInst s i with
  | none => s
  | some inst =>
    let s1 := { s with mountLog := s.mountLog ++ (if inst.mountArmed then [i] else []) }
    setInst s1 i { inst with mountArmed := false }

/-- The `ReactiveComponent` constructor: record the parent and auto-register
into the parent's children set only when the parent is itself a
`ReactiveComponent`; a `ReactiveChild` (or absent) parent gets no
registration. -/
def newComponentInst (parent : Option PRef) (s : JState) : Nat × JState :=
  let i := s.nextInst
  let base : InstSt :=
    { parent := parent, children := [], cleanups := [], autoDisposals := [],
      domRoot := none, disposed := false, mountArmed := true }
  let s1 := { s with insts := assocSet s.insts i base, nextInst := s.nextInst + 1 }
  match parent with
  | some (PRef.comp j) =>
    match getInst s1 j with
    | some pj => (i, setInst s1 j { pj with children := pj.children ++ [i] })
    | none => (i, s1)
  | _ => (i, s1)

/-- What a keyed item's deferred `value` evaluates to in
`evaluateKeyedItem`: a component function (which, in this model, either
returns a fresh DOM root or fails to — the latter reproduces the
`Keyed component did not return a valid DOM node` throw), or an intrinsic
element (always a fresh DOM node, never an instance). -/
inductive KDesc
  | kcomp (returnsNode : Bool)
  | kintrinsic
deriving DecidableEq

/-- A renderable item after flattening: an already-created DOM node, a
primitive (normalized to a fresh text node), an unevaluated `KeyedItem`
`{ key, value }`, or an already-evaluated `ReactiveComponent`. -/
inductive Item
  | nodeRef (n : Nat)
  | prim (v : Int)
  | keyed (k : Nat) (d : KDesc)
  | comp (i : Nat)
deriving DecidableEq

/-- The result of evaluating the reactive child expression: `null`/`false`,
a single item, or a (possibly nested) array whose `null`/`false` holes
`flatten` drops. -/
inductive CTree
  | nullv
  | leaf (it : Item)
  | arr (xs : List CTree)

mutual

/-- The `flatten` helper of the autorun body, one tree at a time: drop
null/false, splice nested arrays, keep everything else in order. -/
def flattenTree : CTree → List Item
  | CTree.nullv => []
  | CTree.leaf it => [it]
  | CTree.arr xs => flattenTrees xs

/-- `flatten` over the elements of an array expression. -/
def flattenTrees : List CTree → List Item
  | [] => []
  | t :: rest => flattenTree t ++ flattenTrees rest

end

/-- `isKeyedItem` (a duck-type test for `key in value && value in value` in
the source; in this closed item type, exactly the `keyed` constructor). -/
def isKeyedItem : Item → Bool
  | Item.keyed _ _ => true
  | _ => false

def hasKeyedItems (l : List Item) : Bool := l.any isKeyedItem

def allKeyedItems (l : List Item) : Bool := l.all isKeyedItem

def mixMsg : String := "Cannot mix keyed and non-keyed children in the same array"

def keyedNoDomMsg : String := "Keyed component did not return a valid DOM node"

def compNoDomMsg : String := "Component did not return a valid DOM node"

/-- Outcome of evaluating/normalizing one item: an optional owning instance
plus a DOM node, or a thrown error. -/
inductive EvalRes
  | ok (inst : Option Nat) (node : Nat)
  | err (msg : String)
deriving DecidableEq

/-- `evaluateKeyedItem` (jsx.ts): for a component function, run it via
`evaluateComponentFunction` with `getCurrentInstance()` as parent — the
constructor does not register into a `ReactiveChild` parent — take its
`domRoot` (throwing when absent) and stamp `__key`; for an intrinsic
element, create the element and stamp `__key`. -/
def evaluateKeyedItem (cur : Option PRef) (k : Nat) (d : KDesc) (s : JState) :
    EvalRes × JState :=
  match d with
  | KDesc.kcomp true =>
    let r := newComponentInst cur s
    let nid := r.2.nextNode
    let s2 := { r.2 with nextNode := nid + 1 }
    let s3 :=
      match getInst s2 r.1 with
      | some inst => setInst s2 r.1 { inst with domRoot := some nid }
      | none => s2
    let s4 := { s3 with nodeKey := assocSet s3.nodeKey nid k }
    (EvalRes.ok (some r.1) nid, s4)
  | KDesc.kcomp false =>
    let r := newComponentInst cur s
    (EvalRes.err keyedNoDomMsg, r.2)
  | KDesc.kintrinsic =>
    let nid := s.nextNode
    let s1 := { s with nextNode := nid + 1, nodeKey := assocSet s.nodeKey nid k }
    (EvalRes.ok none nid, s1)

/-- `normalizeToInstanceAndNode`: an already-built `ReactiveComponent`
yields its `domRoot` (throwing when absent), a `KeyedItem` is evaluated, a
DOM node passes through, and anything else becomes a fresh text node. -/
def normalizeToInstanceAndNode (cur : Option PRef) (it : Item) (s : JState) :
    EvalRes × JState :=
  match it with
  | Item.comp i =>
    (match getInst s i with
     | some inst =>
       match inst.domRoot with
       | some n => (EvalRes.ok (some i) n, s)
       | none => (EvalRes.err compNoDomMsg, s)
     | none => (EvalRes.err compNoDomMsg, s))
  | Item.keyed k d => evaluateKeyedItem cur k d s
  | Item.nodeRef n => (EvalRes.ok none n, s)
  | Item.prim _ =>
    let nid := s.nextNode
    (EvalRes.ok none nid, { s with nextNode := nid + 1 })

/-- CLEANUP PHASE of the autorun body: dispose every child instance from
the previous evaluation, then clear the children set. -/
def cleanupPhase (s : JState) : JState :=
  let s1 := s.rcChildren.foldl (fun acc c => disposeInst (acc.insts.length + 1) c acc) s
  { s1 with rcChildren := [] }

/-- Case 3a (non-keyed array): insert each flattened item in order,
registering any produced instance and firing its mount callbacks; an
exception from normalization aborts the loop with the partial state. -/
def renderListLoop (cur : Option PRef) : List Item → JState → JState × Option String
  | [], s => (s, none)
  | it :: rest, s =>
    match normalizeToInstanceAndNode cur it s with
    | (EvalRes.err m, s1) => (s1, some m)
    | (EvalRes.ok instOpt n, s1) =>
      let s2 := regionInsertBeforeRef n none s1
      let s3 :=
        match instOpt with
        | some i => callMount i { s2 with rcChildren := s2.rcChildren ++ [i] }
        | none => s2
      renderListLoop cur rest s3

/-- STEP 0 of the keyed diff: remove any node in the region that carries no
`__key` (leftovers of a previous non-keyed render). -/
def step0RemoveUnkeyed (s : JState) : JState :=
  { s with contents := s.contents.filter (fun n => (assocGet s.nodeKey n).isSome) }

/-- STEP 1a: collect keyed entries from the tracked `ReactiveComponent`
children (instances with a `__key`-stamped `domRoot`). -/
def step1a (s : JState) : List (Nat × (Option Nat × Nat)) :=
  s.rcChildren.foldl
    (fun m i =>
      match getInst s i with
      | some inst =>
        (match inst.domRoot with
         | some n =>
           (match assocGet s.nodeKey n with
            | some k => assocSet m k (some i, n)
            | none => m)
         | none => m)
      | none => m) []

/-- STEP 1b: scan the region for keyed intrinsic nodes not already in the
map. -/
def step1b (s : JState) (m0 : List (Nat × (Option Nat × Nat))) :
    List (Nat × (Option Nat × Nat)) :=
  s.contents.foldl
    (fun m n =>
      match assocGet s.nodeKey n with
      | some k => if (assocGet m k).isSome then m else assocSet m k (none, n)
      | none => m) m0

/-- STEP 3: for every old key absent from the new key set, dispose its
instance when it has one, else just detach its node; drop it from the map
(iteration visits entries in insertion order, as a JS `Map` does). -/
def step3Remove (newKeys : List Nat) :
    List (Nat × (Option Nat × Nat)) → JState → List (Nat × (Option Nat × Nat)) × JState
  | [], s => ([], s)
  | (k, entry) :: rest, s =>
    if k ∈ newKeys then
      let r := step3Remove newKeys rest s
      ((k, entry) :: r.1, r.2)
    else
      let s1 :=
        match entry.1 with
        | some i => disposeInst (s.insts.length + 1) i s
        | none => domRemoveNode entry.2 s
      step3Remove newKeys rest s1

/-- `node.nextSibling` interpreted inside the region: `some (some m)` when
the next sibling is node `m`, `some none` when it is the end anchor (the
node is last between the anchors), and `none` when the node is not in the
region at all. -/
def nextSiblingInRegion : List Nat → Nat → Option (Option Nat)
  | [], _ => none
  | [x], n => if x = n then some none else none
  | x :: y :: xs, n =>
    if x = n then some (some y) else nextSiblingInRegion (y :: xs) n

/-- The `existing.node.nextSibling !== insertBeforeRef` guard, as an
equality test: a detached node's `nextSibling` is `null`, which is never
identical to the end anchor or to an attached reference node. -/
def nextSibEq (contents : List Nat) (n : Nat) (ref : Option Nat) : Bool :=
  match nextSiblingInRegion contents n with
  | some r => r = ref
  | none => false

/-- STEP 4, one backward step at a time (the argument list is the reversed
new-items list): reuse and (only when mispositioned) move an existing
node, or lazily evaluate a new keyed item, insert it, register its
instance and fire its mount callbacks; the walk's reference node trails
behind. A throw from `evaluateKeyedItem` aborts the walk. -/
def step4Walk (cur : Option PRef) (oldByKey : List (Nat × (Option Nat × Nat))) :
    List (Nat × KDesc) → JState → Option Nat → List Nat → JState × List Nat × Option String
  | [], s, _, newCh => (s, newCh, none)
  | (k, d) :: rest, s, ref, newCh =>
    match assocGet oldByKey k with
    | some entry =>
      let s1 := if nextSibEq s.contents entry.2 ref then s else domInsertBefore entry.2 ref s
      let newCh1 :=
        match entry.1 with
        | some i => newCh ++ [i]
        | none => newCh
      step4Walk cur oldByKey rest s1 (some entry.2) newCh1
    | none =>
      match evaluateKeyedItem cur k d s with
      | (EvalRes.err m, s1) => (s1, newCh, some m)
      | (EvalRes.ok instOpt n, s1) =>
        let s2 := regionInsertBeforeRef n ref s1
        let r :=
          match instOpt with
          | some i => (callMount i s2, newCh ++ [i])
          | none => (s2, newCh)
        step4Walk cur oldByKey rest r.1 (some n) r.2

/-- The key/descriptor view of a flattened item (`flattened as KeyedItem[]`
— on an all-keyed list this is the identity cast). -/
def asKeyed : Item → Option (Nat × KDesc)
  | Item.keyed k d => some (k, d)
  | _ => none

/--
One run of the reactive-child autorun body of `appendChild` (jsx.ts),
driven by the already-evaluated expression result `out`; `cur` is
`getCurrentInstance()` at the time of this run. Phases, in source order:
the cleanup phase (dispose all previous children, clear the set), then
null/false → clear; single item → normalize, clear, insert, register +
mount any instance; array → flatten, reject mixed keyed/non-keyed with a
throw, non-keyed → clear and re-insert everything, all-keyed → the keyed
diff (steps 0–5, finishing by replacing the children set with exactly the
instances touched by the walk). The `Option String` is the thrown
exception, with all mutations made before the throw kept.
-/
def rcUpdate (cur : Option PRef) (out : CTree) (s : JState) : JState × Option String :=
  let sA := cleanupPhase s
  match out with
  | CTree.nullv => (regionClearContent sA, none)
  | CTree.leaf it =>
    (match normalizeToInstanceAndNode cur it sA with
     | (EvalRes.err m, s1) => (s1, some m)
     | (EvalRes.ok instOpt n, s1) =>
       let s2 := regionInsertBeforeRef n none (regionClearContent s1)
       match instOpt with
       | some i => (callMount i { s2 with rcChildren := s2.rcChildren ++ [i] }, none)
       | none => (s2, none))
  | CTree.arr xs =>
    let flattened := flattenTrees xs
    if hasKeyedItems flattened && !allKeyedItems flattened then (sA, some mixMsg)
    else if !allKeyedItems flattened then renderListLoop cur flattened (regionClearContent sA)
    else
      let s0 := step0RemoveUnkeyed sA
      let oldByKey := step1b s0 (step1a s0)
      let keyedItems := flattened.filterMap asKeyed
      let newKeys := keyedItems.map (fun kd => kd.1)
      let r3 := step3Remove newKeys oldByKey s0
      let r4 := step4Walk cur r3.1 keyedItems.reverse r3.2 none []
      match r4.2.2 with
      | some m => (r4.1, some m)
      | none => ({ r4.1 with rcChildren := r4.2.1 }, none)

/-- `mode` of the part_001 revision of the reactive child:
`"none" | "single" | "array"`. -/
inductive P1Mode
  | modeNone
  | modeSingle
  | modeArray
deriving DecidableEq

/-- State for the part_001 revision of `appendChild`'s reactive region:
the region's contents, the `mode`/`singleNode`/`arrayNodes` trackers kept
by the closure, the `__key` stamps, the node allocator, and the region-
operation trace. (`clearContent` of that revision also runs per-node
listener cleanup, which touches no field modelled here.) -/
structure P1State where
  contents : List Nat
  mode : P1Mode
  singleNode : Option Nat
  arrayNodes : List Nat
  nodeKey : List (Nat × Nat)
  nextNode : Nat
  regionOps : List ROp
deriving DecidableEq

/-- A leaf of the part_001 reactive expression result: a DOM node, a
primitive, or a `KeyedItem` (that revision's `evaluateKeyedItem` always
produces a node, for components and intrinsic elements alike). -/
inductive P1Leaf
  | pnode (n : Nat)
  | pprim (v : Int)
  | pkeyed (k : Nat)
deriving DecidableEq

/-- The part_001 reactive expression result. -/
inductive P1Tree
  | pnull
  | pleaf (l : P1Leaf)
  | parr (xs : List P1Tree)

/-- Flattened entries of the part_001 `flatten`: it converts primitives to
fresh text nodes on the spot and keeps keyed items unevaluated. -/
inductive P1Flat
  | fnode (n : Nat)
  | fkeyed (k : Nat)
deriving DecidableEq

mutual

/-- part_001 `flatten`, one tree at a time: drop null/false, splice arrays,
keep keyed items and nodes, and turn anything else into a freshly created
text node (allocated at the moment `flatten` reaches it). -/
def p1FlattenOne : P1Tree → P1State → List P1Flat × P1State
  | P1Tree.pnull, s => ([], s)
  | P1Tree.pleaf (P1Leaf.pnode n), s => ([P1Flat.fnode n], s)
  | P1Tree.pleaf (P1Leaf.pprim _), s =>
    ([P1Flat.fnode s.nextNode], { s with nextNode := s.nextNode + 1 })
  | P1Tree.pleaf (P1Leaf.pkeyed k), s => ([P1Flat.fkeyed k], s)
  | P1Tree.parr xs, s => p1FlattenList xs s

/-- part_001 `flatten` over the elements of an array expression. -/
def p1FlattenList : List P1Tree → P1State → List P1Flat × P1State
  | [], s => ([], s)
  | t :: rest, s =>
    let r1 := p1FlattenOne t s
    let r2 := p1FlattenList rest r1.2
    (r1.1 ++ r2.1, r2.2)

end

/-- part_001 `evaluateKeyedItem`: build the node and stamp `__key`. -/
def p1EvaluateKeyedItem (k : Nat) (s : P1State) : Nat × P1State :=
  let nid := s.nextNode
  (nid, { s with nextNode := nid + 1, nodeKey := assocSet s.nodeKey nid k })

/-- part_001 `region.clearContent()`. -/
def p1ClearContent (s : P1State) : P1State :=
  { s with contents := [], regionOps := s.regionOps ++ [ROp.clearContentOp] }

/-- part_001 `region.insertBeforeRef(n, ref)` — logged. -/
def p1InsertBeforeRef (n : Nat) (ref : Option Nat) (s : P1State) : P1State :=
  { s with contents := insertBeforeList n ref (s.contents.filter (fun x => x ≠ n)),
           regionOps := s.regionOps ++ [ROp.insertOp n] }

/-- Direct `parentNode.insertBefore` (the keyed move) — not logged. -/
def p1DomInsertBefore (n : Nat) (ref : Option Nat) (s : P1State) : P1State :=
  { s with contents := insertBeforeList n ref (s.contents.filter (fun x => x ≠ n)) }

/-- `node.parentNode?.removeChild(node)`. -/
def p1DomRemoveNode (n : Nat) (s : P1State) : P1State :=
  { s with contents := s.contents.filter (fun x => x ≠ n) }

/-- `for (const n of arrayNodes) oldByKey.set(n.__key, n)` — a node without
a key files under the JS `undefined` key, hence the `Option Nat` map key. -/
def p1OldByKey (s : P1State) : List (Option Nat × Nat) :=
  s.arrayNodes.foldl (fun m n => assocSet m (assocGet s.nodeKey n) n) []

/-- part_001 first pass: remove map entries whose key is not among the new
keys (an `undefined` key never is), detaching their nodes. -/
def p1RemovalPass (newKeys : List Nat) :
    List (Option Nat × Nat) → P1State → List (Option Nat × Nat) × P1State
  | [], s => ([], s)
  | (k, n) :: rest, s =>
    match k with
    | some kk =>
      if kk ∈ newKeys then
        let r := p1RemovalPass newKeys rest s
        ((k, n) :: r.1, r.2)
      else p1RemovalPass newKeys rest (p1DomRemoveNode n s)
    | none => p1RemovalPass newKeys rest (p1DomRemoveNode n s)

/-- part_001 second pass over the reversed key list: reuse and reposition
an existing node (skipping redundant moves), or evaluate the keyed item
now and insert it; the reference node trails behind. -/
def p1SecondPass (oldByKey : List (Option Nat × Nat)) :
    List Nat → P1State → Option Nat → P1State
  | [], s, _ => s
  | k :: rest, s, ref =>
    match assocGet oldByKey (some k) with
    | some n =>
      let s1 := if nextSibEq s.contents n ref then s else p1DomInsertBefore n ref s
      p1SecondPass oldByKey rest s1 (some n)
    | none =>
      let r := p1EvaluateKeyedItem k s
      let s1 := p1InsertBeforeRef r.1 ref r.2
      p1SecondPass oldByKey rest s1 (some r.1)

/-- Evaluate the straggler items of the non-keyed branch into nodes. -/
def p1EvalAll : List P1Flat → P1State → List Nat × P1State
  | [], s => ([], s)
  | P1Flat.fnode n :: rest, s =>
    let r := p1EvalAll rest s
    (n :: r.1, r.2)
  | P1Flat.fkeyed k :: rest, s =>
    let e := p1EvaluateKeyedItem k s
    let r := p1EvalAll rest e.2
    (e.1 :: r.1, r.2)

/--
One run of the part_001 revision of the reactive-region autorun body:
null/false → clear only when not already in `none` mode; single result →
normalize to a node and, when the region is in `single` mode showing that
very node, do nothing (the skip-redundant-update optimization), else clear
and insert; arrays → flatten, and `allKeyed` (false for an empty list) picks
replace-all or the keyed diff over the remembered `arrayNodes`.
-/
def p1Update (out : P1Tree) (s : P1State) : P1State :=
  match out with
  | P1Tree.pnull =>
    if s.mode = P1Mode.modeNone then s
    else
      { p1ClearContent s with singleNode := none, arrayNodes := [], mode := P1Mode.modeNone }
  | P1Tree.pleaf l =>
    let r :=
      match l with
      | P1Leaf.pkeyed k => p1EvaluateKeyedItem k s
      | P1Leaf.pnode n => (n, s)
      | P1Leaf.pprim _ => (s.nextNode, { s with nextNode := s.nextNode + 1 })
    if r.2.mode = P1Mode.modeSingle ∧ r.2.singleNode = some r.1 then r.2
    else
      let s1 := p1InsertBeforeRef r.1 none (p1ClearContent r.2)
      { s1 with singleNode := some r.1, arrayNodes := [], mode := P1Mode.modeSingle }
  | P1Tree.parr xs =>
    let fr := p1FlattenList xs s
    let allKeyed :=
      if fr.1.length = 0 then false
      else fr.1.all (fun f => match f with | P1Flat.fkeyed _ => true | _ => false)
    if !allKeyed then
      let r := p1EvalAll fr.1 fr.2
      let s1 := p1ClearContent r.2
      let s2 := r.1.foldl (fun acc n => p1InsertBeforeRef n none acc) s1
      { s2 with arrayNodes := r.1, singleNode := none, mode := P1Mode.modeArray }
    else
      let keyedKeys :=
        fr.1.filterMap (fun f => match f with | P1Flat.fkeyed k => some k | _ => none)
      let r3 := p1RemovalPass keyedKeys (p1OldByKey fr.2) fr.2
      let s4 := p1SecondPass r3.1 keyedKeys.reverse r3.2 none
      { s4 with arrayNodes := s4.contents, singleNode := none, mode := P1Mode.modeArray }

/-- A `ReactiveComponent` rendered for keyed item `key = 1` in a previous
cycle: its DOM root is node 10 (stamped `__key = 1`), it has one user
cleanup (id 5), and it is tracked by the reactive child. -/
def c1inst : InstSt :=
  { parent := some PRef.rchild, children := [], cleanups := [5], autoDisposals := [],
    domRoot := some 10, disposed := false, mountArmed := false }

/-- Region state after that previous cycle: node 10 is the only content. -/
def c1st : JState :=
  { insts := [(0, c1inst)], rcChildren := [0], contents := [10], nodeKey := [(10, 1)],
    nextInst := 1, nextNode := 11, mountLog := [], cleanupRunLog := [],
    autoDisposeLog := [], regionOps := [] }

/-- Region showing the externally created node 7 as its single content;
no instances are tracked. -/
def c8st : JState :=
  { insts := [], rcChildren := [], contents := [7], nodeKey := [], nextInst := 0,
    nextNode := 8, mountLog := [], cleanupRunLog := [], autoDisposeLog := [],
    regionOps := [] }

/-- The children list of an instance (empty when the id is unknown). -/
def childrenOf (s : JState) (j : Nat) : List Nat :=
  match getInst s j with
  | some inst => inst.children
  | none => []

/-- The instance is marked disposed whenever its record exists. -/
def disposedIfPresent (s : JState) (i : Nat) : Prop :=
  ∀ inst, getInst s i = some inst → inst.disposed = true

/-- Scope 0 holds cleanup 9 in its slot. -/
def c10state : RState :=
  { rstateInit [] with cleanupSlot := [(0, 9)] }

/-- The part_001 region in single mode already showing node 7. -/
def c8p1 : P1State :=
  { contents := [7], mode := P1Mode.modeSingle, singleNode := some 7,
    arrayNodes := [], nodeKey := [], nextNode := 8, regionOps := [] }

theorem assocGet_assocSet_self {α β : Type} [DecidableEq α]
    (l : List (α × β)) (a : α) (b : β) : assocGet (assocSet l a b) a = some b := by
  induction l with
  | nil => simp [assocSet, assocGet]
  | cons hd tl ih =>
    by_cases h : hd.1 = a
    · simp [assocSet, assocGet, h]
    · simp [assocSet, assocGet, h, ih]

theorem createReactiveProxy_stable (t : Nat) (s : PCache) :
    createReactiveProxy t (createReactiveProxy t s).2 = createReactiveProxy t s := by
  unfold createReactiveProxy
  cases h : assocGet s.cache t with
  | some p => simp [h]
  | none => simp [h, assocGet_assocSet_self]

theorem addListener_fields (p : PKey) (sc : Nat) (s : RState) :
    (addListener p sc s).runLog = s.runLog ∧ (addListener p sc s).pending = s.pending
  ∧ (addListener p sc s).batching = s.batching ∧ (addListener p sc s).store = s.store
  ∧ (addListener p sc s).changeCounter = s.changeCounter
  ∧ (addListener p sc s).cleanupSlot = s.cleanupSlot
  ∧ (addListener p sc s).cleanupLog = s.cleanupLog
  ∧ (addListener p sc s).subs = s.subs := by
  unfold addListener
  dsimp only
  split <;> exact ⟨rfl, rfl, rfl, rfl, rfl, rfl, rfl, rfl⟩

theorem addSubscription_fields (sc : Nat) (p : PKey) (s : RState) :
    (addSubscription sc p s).runLog = s.runLog ∧ (addSubscription sc p s).pending = s.pending
  ∧ (addSubscription sc p s).batching = s.batching ∧ (addSubscription sc p s).store = s.store
  ∧ (addSubscription sc p s).changeCounter = s.changeCounter
  ∧ (addSubscription sc p s).cleanupSlot = s.cleanupSlot
  ∧ (addSubscription sc p s).cleanupLog = s.cleanupLog
  ∧ (addSubscription sc p s).listeners = s.listeners := by
  unfold addSubscription
  dsimp only
  split <;> exact ⟨rfl, rfl, rfl, rfl, rfl, rfl, rfl, rfl⟩

theorem trackRead_fields (sc : Nat) (p : PKey) (s : RState) :
    (trackRead sc p s).runLog = s.runLog ∧ (trackRead sc p s).pending = s.pending
  ∧ (trackRead sc p s).batching = s.batching ∧ (trackRead sc p s).store = s.store
  ∧ (trackRead sc p s).changeCounter = s.changeCounter
  ∧ (trackRead sc p s).cleanupSlot = s.cleanupSlot
  ∧ (trackRead sc p s).cleanupLog = s.cleanupLog := by
  unfold trackRead
  have h1 := addListener_fields p sc s
  have h2 := addSubscription_fields sc p (addListener p sc s)
  exact ⟨h2.1.trans h1.1, h2.2.1.trans h1.2.1, h2.2.2.1.trans h1.2.2.1,
         h2.2.2.2.1.trans h1.2.2.2.1, h2.2.2.2.2.1.trans h1.2.2.2.2.1,
         h2.2.2.2.2.2.1.trans h1.2.2.2.2.2.1, h2.2.2.2.2.2.2.1.trans h1.2.2.2.2.2.2.1⟩

theorem foldTrack_fields (sc : Nat) (l : List PKey) (s : RState) :
    (l.foldl (fun acc p => trackRead sc p acc) s).runLog = s.runLog
  ∧ (l.foldl (fun acc p => trackRead sc p acc) s).pending = s.pending
  ∧ (l.foldl (fun acc p => trackRead sc p acc) s).batching = s.batching
  ∧ (l.foldl (fun acc p => trackRead sc p acc) s).store = s.store
  ∧ (l.foldl (fun acc p => trackRead sc p acc) s).changeCounter = s.changeCounter := by
  induction l generalizing s with
  | nil => exact ⟨rfl, rfl, rfl, rfl, rfl⟩
  | cons a t ih =>
    have h := trackRead_fields sc a s
    have h2 := ih (trackRead sc a s)
    exact ⟨h2.1.trans h.1, h2.2.1.trans h.2.1, h2.2.2.1.trans h.2.2.1,
           h2.2.2.2.1.trans h.2.2.2.1, h2.2.2.2.2.trans h.2.2.2.2.1⟩

theorem runScope_fields (env : Env) (sc : Nat) (s : RState) :
    (runScope env sc s).runLog = s.runLog ++ [sc]
  ∧ (runScope env sc s).pending = s.pending
  ∧ (runScope env sc s).batching = s.batching
  ∧ (runScope env sc s).store = s.store
  ∧ (runScope env sc s).changeCounter = s.changeCounter := by
  unfold runScope
  have h := foldTrack_fields sc (env sc s.store).1 s
  cases hc : (env sc s.store).2 with
  | some c =>
    simp only [hc]
    exact ⟨by simp [h.1], by simp [h.2.1], by simp [h.2.2.1],
           by simp [h.2.2.2.1], by simp [h.2.2.2.2]⟩
  | none =>
    simp only [hc]
    exact ⟨by simp [h.1], by simp [h.2.1], by simp [h.2.2.1],
           by simp [h.2.2.2.1], by simp [h.2.2.2.2]⟩

theorem invokeAndClearCleanup_fields (sc : Nat) (s : RState) :
    (invokeAndClearCleanup sc s).runLog = s.runLog
  ∧ (invokeAndClearCleanup sc s).pending = s.pending
  ∧ (invokeAndClearCleanup sc s).batching = s.batching
  ∧ (invokeAndClearCleanup sc s).store = s.store
  ∧ (invokeAndClearCleanup sc s).changeCounter = s.changeCounter
  ∧ (invokeAndClearCleanup sc s).listeners = s.listeners := by
  unfold invokeAndClearCleanup
  split <;> exact ⟨rfl, rfl, rfl, rfl, rfl, rfl⟩

theorem notifyFold_fields (env : Env) (l : List Nat) (s : RState) :
    ((l.foldl (fun acc sc => runScope env sc (invokeAndClearCleanup sc acc)) s).runLog
        = s.runLog ++ l)
  ∧ ((l.foldl (fun acc sc => runScope env sc (invokeAndClearCleanup sc acc)) s).pending
        = s.pending)
  ∧ ((l.foldl (fun acc sc => runScope env sc (invokeAndClearCleanup sc acc)) s).batching
        = s.batching)
  ∧ ((l.foldl (fun acc sc => runScope env sc (invokeAndClearCleanup sc acc)) s).store
        = s.store)
  ∧ ((l.foldl (fun acc sc => runScope env sc (invokeAndClearCleanup sc acc)) s).changeCounter
        = s.changeCounter) := by
  induction l generalizing s with
  | nil => exact ⟨by simp, rfl, rfl, rfl, rfl⟩
  | cons a t ih =>
    have hi := invokeAndClearCleanup_fields a s
    have hr := runScope_fields env a (invokeAndClearCleanup a s)
    have h2 := ih (runScope env a (invokeAndClearCleanup a s))
    refine ⟨?_, ?_, ?_, ?_, ?_⟩
    · simp only [List.foldl_cons]
      rw [h2.1, hr.1, hi.1]
      simp
    · simp only [List.foldl_cons]
      rw [h2.2.1, hr.2.1, hi.2.1]
    · simp only [List.foldl_cons]
      rw [h2.2.2.1, hr.2.2.1, hi.2.2.1]
    · simp only [List.foldl_cons]
      rw [h2.2.2.2.1, hr.2.2.2.1, hi.2.2.2.1]
    · simp only [List.foldl_cons]
      rw [h2.2.2.2.2, hr.2.2.2.2, hi.2.2.2.2.1]

theorem notifyListeners_fields (env : Env) (p : PKey) (s : RState) :
    (notifyListeners env p s).runLog = s.runLog ++ getListeners s p
  ∧ (notifyListeners env p s).pending = s.pending
  ∧ (notifyListeners env p s).batching = s.batching := by
  unfold notifyListeners
  have h := notifyFold_fields env (getListeners s p) s
  exact ⟨h.1, h.2.1, h.2.2.1⟩

theorem flushNotifications_fields (env : Env) (s : RState) :
    (flushNotifications env s).batching = s.batching
  ∧ (flushNotifications env s).pending = [] := by
  unfold flushNotifications
  generalize hp : s.pending = pend
  generalize hs : ({ s with changeCounter := s.changeCounter + 1, pending := [] } : RState) = s1
  have hb : s1.batching = s.batching := by rw [← hs]
  have hpe : s1.pending = [] := by rw [← hs]
  clear hs hp
  induction pend generalizing s1 with
  | nil => exact ⟨hb, hpe⟩
  | cons a t ih =>
    have hn := notifyListeners_fields env a s1
    exact ih (notifyListeners env a s1) (hn.2.2.trans hb) (hn.2.1.trans hpe)

theorem setTrap_batching_true (env : Env) (p : PKey) (v : Int) (s : RState)
    (h : s.batching = true) :
    (setTrap env p v s).batching = true ∧ (setTrap env p v s).runLog = s.runLog := by
  unfold setTrap
  dsimp only
  by_cases hold : assocGet s.store p = some v
  · rw [if_pos hold]
    exact ⟨h, rfl⟩
  · rw [if_neg hold, if_pos h]
    exact ⟨h, rfl⟩

theorem runWrites_batching_true (env : Env) (ws : List (PKey × Int)) (s : RState)
    (h : s.batching = true) :
    (runWrites env ws s).batching = true ∧ (runWrites env ws s).runLog = s.runLog := by
  induction ws generalizing s with
  | nil => exact ⟨h, rfl⟩
  | cons a t ih =>
    have h1 := setTrap_batching_true env a.1 a.2 s h
    have h2 := ih (setTrap env a.1 a.2 s) h1.1
    simp only [runWrites, List.foldl_cons] at h2 ⊢
    exact ⟨h2.1, h2.2.trans h1.2⟩

/-- C5: writing a value identity-equal (`===`) to the stored one never
schedules a notification — no queueing, no listener run, no change-cycle
bump; a write that differs schedules exactly one notification for the
written (object, property): appended once to the pending queue when a
batch is open, and otherwise delivered immediately, running exactly the
current listeners of that property once each. -/
theorem setTrap_notification_policy (env : Env) (p : PKey) (v : Int) (s : RState) :
    (assocGet s.store p = some v →
        (setTrap env p v s).runLog = s.runLog
      ∧ (setTrap env p v s).pending = s.pending
      ∧ (setTrap env p v s).changeCounter = s.changeCounter)
  ∧ (assocGet s.store p ≠ some v → s.batching = true →
        setTrap env p v s
          = { s with store := assocSet s.store p v, pending := s.pending ++ [p] })
  ∧ (assocGet s.store p ≠ some v → s.batching = false →
        (setTrap env p v s).runLog = s.runLog ++ getListeners s p
      ∧ (setTrap env p v s).pending = s.pending) := by
  refine ⟨?_, ?_, ?_⟩
  · intro h
    unfold setTrap
    dsimp only
    rw [if_pos h]
    exact ⟨rfl, rfl, rfl⟩
  · intro h hb
    unfold setTrap
    dsimp only
    rw [if_neg h, if_pos hb]
  · intro h hb
    unfold setTrap
    dsimp only
    rw [if_neg h, if_neg (by simp [hb])]
    have hn := notifyListeners_fields env p
      { s with store := assocSet s.store p v, changeCounter := s.changeCounter + 1 }
    exact ⟨hn.1, hn.2.1⟩

/-- Witness for C5 at concrete inputs: a same-value write to (0,0) in
`c3start` runs nothing; a changing write queues one entry under batching
and runs the listeners once when unbatched. -/
theorem setTrap_notification_policy_witness :
    ((setTrap envBoth ⟨0, 0⟩ 0 c3start).runLog = c3start.runLog
      ∧ (setTrap envBoth ⟨0, 0⟩ 0 c3start).pending = c3start.pending
      ∧ (setTrap envBoth ⟨0, 0⟩ 0 c3start).changeCounter = c3start.changeCounter)
  ∧ (setTrap envBoth ⟨0, 0⟩ 5 { c3start with batching := true }
      = { { c3start with batching := true } with
            store := assocSet ({ c3start with batching := true } : RState).store ⟨0, 0⟩ 5,
            pending := ({ c3start with batching := true } : RState).pending ++ [⟨0, 0⟩] })
  ∧ ((setTrap envBoth ⟨0, 0⟩ 5 c3start).runLog = c3start.runLog ++ getListeners c3start ⟨0, 0⟩
      ∧ (setTrap envBoth ⟨0, 0⟩ 5 c3start).pending = c3start.pending) :=
  ⟨(setTrap_notification_policy envBoth ⟨0, 0⟩ 0 c3start).1 (by decide),
   (setTrap_notification_policy envBoth ⟨0, 0⟩ 5 { c3start with batching := true }).2.1
     (by decide) (by decide),
   (setTrap_notification_policy envBoth ⟨0, 0⟩ 5 c3start).2.2 (by decide) (by decide)⟩

/-- C3 counterexample: the pending-notification queue does not deduplicate.
Scope 0 depends on (0,0) and (0,1) and has run once (`c3start.runLog = [0]`).
Writing (0,0) twice inside one batch fires its listener twice during the
drain, and writing (0,0) and (0,1) once each fires the single dependent
computation twice as well — the claimed dedup would give `[0, 0]` in both
cases, but the drain produces `[0, 0, 0]`. -/
theorem batch_listener_runs_per_write :
    (batch envBoth (runWrites envBoth [(⟨0, 0⟩, 1), (⟨0, 0⟩, 2)]) c3start).runLog = [0, 0, 0]
  ∧ (batch envBoth (runWrites envBoth [(⟨0, 0⟩, 1), (⟨0, 1⟩, 2)]) c3start).runLog = [0, 0, 0] := by
  decide

/-- C3 amended: notifications for writes inside `batch(fn)` are deferred
until `fn` completes (no listener runs during the body), and nested batch
calls are transparent (only the outermost call drains); but the drain is
not deduplicated — each value-changing write queues its own fresh
notification closure, so listeners fire once per queued write, as the
concrete run shows (`[0, 0, 0]`, not `[0, 0]`). -/
theorem batch_deferral_and_nesting (env : Env) (ws : List (PKey × Int))
    (body : RState → RState) (s : RState) (h : s.batching = false) :
    (runWrites env ws { s with batching := true }).runLog = s.runLog
  ∧ batch env (fun t => batch env body t) s = batch env body s
  ∧ (batch envBoth (runWrites envBoth [(⟨0, 0⟩, 1), (⟨0, 1⟩, 2)]) c3start).runLog = [0, 0, 0] := by
  refine ⟨?_, ?_, by decide⟩
  · exact (runWrites_batching_true env ws { s with batching := true } rfl).2
  · unfold batch
    dsimp only
    rw [h]
    simp only [Bool.false_eq_true, if_false, if_true]

/-- Witness for C3 (amended) at concrete inputs. -/
theorem batch_deferral_and_nesting_witness :
    (runWrites envBoth [(⟨0, 0⟩, 3)] { c3start with batching := true }).runLog = c3start.runLog
  ∧ batch envBoth (fun t => batch envBoth (fun u => u) t) c3start
      = batch envBoth (fun u => u) c3start
  ∧ (batch envBoth (runWrites envBoth [(⟨0, 0⟩, 1), (⟨0, 1⟩, 2)]) c3start).runLog = [0, 0, 0] :=
  batch_deferral_and_nesting envBoth [(⟨0, 0⟩, 3)] (fun u => u) c3start (by decide)

/-- C4 (code bug in the cited `autorun` revision): subscriptions are never
wiped at the start of a re-run. After the re-run that reads only (0,0),
the scope's subscription set still contains (0,1), the scope is still in
the listener set of (0,1), and a subsequent write to (0,1) re-runs the
scope a third time (`runLog = [0, 0, 0]`) even though the branch reading
it is no longer taken. -/
theorem autorun_subscriptions_accumulate :
    getSubs condRunA 0 = [⟨0, 0⟩, ⟨0, 1⟩]
  ∧ condRunB.runLog = [0, 0]
  ∧ getSubs condRunB 0 = [⟨0, 0⟩, ⟨0, 1⟩]
  ∧ 0 ∈ getListeners condRunB ⟨0, 1⟩
  ∧ condRunC.runLog = [0, 0, 0] := by
  decide

/-- C9: when the body of an outermost `batch` throws after its writes, the
`finally` block still restores the batching flag and drains the queue —
the resulting engine state is identical to the non-throwing run (writes
applied, listeners notified), the flush of the queued writes has happened,
`BATCHING` is `false` again, and only then does the exception propagate. -/
theorem batch_throwing_still_flushes (env : Env) (ws : List (PKey × Int)) (s : RState)
    (h : s.batching = false) :
    (batchTry env (bodyWritesThenThrow env ws) s).2 = true
  ∧ (batchTry env (bodyWritesThenThrow env ws) s).1
      = (batchTry env (bodyWritesNoThrow env ws) s).1
  ∧ (batchTry env (bodyWritesThenThrow env ws) s).1
      = flushNotifications env
          { runWrites env ws { s with batching := true } with batching := false }
  ∧ (batchTry env (bodyWritesThenThrow env ws) s).1.batching = false := by
  have h3 : (batchTry env (bodyWritesThenThrow env ws) s).1
      = flushNotifications env
          { runWrites env ws { s with batching := true } with batching := false } := by
    unfold batchTry bodyWritesThenThrow
    dsimp only
    rw [h]
    simp only [Bool.false_eq_true, if_false, if_true]
  refine ⟨rfl, rfl, h3, ?_⟩
  rw [h3]
  exact (flushNotifications_fields env _).1

/-- Witness for C9 at concrete inputs: the queued write to (0,0) is applied
and its listener (scope 0) runs during the drain even though the body
threw. -/
theorem batch_throwing_still_flushes_witness :
    ((batchTry envBoth (bodyWritesThenThrow envBoth [(⟨0, 0⟩, 7)]) c3start).2 = true
  ∧ (batchTry envBoth (bodyWritesThenThrow envBoth [(⟨0, 0⟩, 7)]) c3start).1
      = (batchTry envBoth (bodyWritesNoThrow envBoth [(⟨0, 0⟩, 7)]) c3start).1
  ∧ (batchTry envBoth (bodyWritesThenThrow envBoth [(⟨0, 0⟩, 7)]) c3start).1
      = flushNotifications envBoth
          { runWrites envBoth [(⟨0, 0⟩, 7)] { c3start with batching := true } with batching := false }
  ∧ (batchTry envBoth (bodyWritesThenThrow envBoth [(⟨0, 0⟩, 7)]) c3start).1.batching = false)
  ∧ (batchTry envBoth (bodyWritesThenThrow envBoth [(⟨0, 0⟩, 7)]) c3start).1.runLog = [0, 0] :=
  ⟨batch_throwing_still_flushes envBoth [(⟨0, 0⟩, 7)] c3start (by decide), by decide⟩

/-- C2: wrapping the same raw object twice returns the identical proxy
handle (`createState(o) === createState(o)`) and leaves the cache exactly
as it was, and reading a nested object through the store's `get` trap
yields the same wrapped handle on every read. -/
theorem createState_identity_stable (target : Nat) (s : PCache)
    (heap : Nat → Nat → Option JSVal) (o p : Nat) :
    createState target (createState target s).2 = createState target s
  ∧ getTrapValue heap o p (getTrapValue heap o p s).2 = getTrapValue heap o p s := by
  constructor
  · exact createReactiveProxy_stable target s
  · unfold getTrapValue
    cases hh : heap o p with
    | none => rfl
    | some jv =>
      cases jv with
      | prim v => rfl
      | obj n =>
        dsimp only
        rw [createReactiveProxy_stable n s]

/-- C1 (code bug): re-evaluating the keyed array with the *same* key 1
(a keyed component item) does not reuse node 10 — the cleanup phase has
already disposed instance 0 (running its cleanup and detaching node 10)
before the diff runs, so the diff sees nothing to reuse and builds a fresh
instance 1 with a fresh node 11. The keyed-diff steps cited by the claim
would reuse the node, but the dispose-all cleanup phase that precedes them
makes their instance branch unreachable. -/
theorem keyed_component_recreated_despite_same_key :
    (rcUpdate (some PRef.rchild) (CTree.arr [CTree.leaf (Item.keyed 1 (KDesc.kcomp true))]) c1st).2
      = none
  ∧ ((getInst (rcUpdate (some PRef.rchild)
        (CTree.arr [CTree.leaf (Item.keyed 1 (KDesc.kcomp true))]) c1st).1 0).map
        (fun inst => inst.disposed)) = some true
  ∧ (rcUpdate (some PRef.rchild)
        (CTree.arr [CTree.leaf (Item.keyed 1 (KDesc.kcomp true))]) c1st).1.cleanupRunLog = [5]
  ∧ (rcUpdate (some PRef.rchild)
        (CTree.arr [CTree.leaf (Item.keyed 1 (KDesc.kcomp true))]) c1st).1.contents = [11]
  ∧ ¬ 10 ∈ (rcUpdate (some PRef.rchild)
        (CTree.arr [CTree.leaf (Item.keyed 1 (KDesc.kcomp true))]) c1st).1.contents
  ∧ (rcUpdate (some PRef.rchild)
        (CTree.arr [CTree.leaf (Item.keyed 1 (KDesc.kcomp true))]) c1st).1.rcChildren = [1]
  ∧ (rcUpdate (some PRef.rchild)
        (CTree.arr [CTree.leaf (Item.keyed 1 (KDesc.kcomp true))]) c1st).1.mountLog = [1] := by
  decide

/-- C8 counterexample: in the jsx.ts revision, re-evaluating to the very
node already shown (node 7) is *not* a no-op — the update issues a
`clearContent` and an `insertBeforeRef` through the region interface (the
final contents are the same, but the region was cleared and re-filled),
so the state is not left untouched. -/
theorem single_same_node_still_clears :
    (rcUpdate none (CTree.leaf (Item.nodeRef 7)) c8st).1.regionOps
      = [ROp.clearContentOp, ROp.insertOp 7]
  ∧ (rcUpdate none (CTree.leaf (Item.nodeRef 7)) c8st).1.contents = [7]
  ∧ (rcUpdate none (CTree.leaf (Item.nodeRef 7)) c8st).2 = none
  ∧ (rcUpdate none (CTree.leaf (Item.nodeRef 7)) c8st).1 ≠ c8st := by
  decide

theorem evaluateKeyedItem_err_msg (cur : Option PRef) (k : Nat) (d : KDesc) (s : JState)
    (m : String) (s1 : JState) (h : evaluateKeyedItem cur k d s = (EvalRes.err m, s1)) :
    m = keyedNoDomMsg := by
  cases d with
  | kcomp b =>
    cases b with
    | true => simp [evaluateKeyedItem] at h
    | false =>
      simp only [evaluateKeyedItem, Prod.mk.injEq, EvalRes.err.injEq] at h
      exact h.1.symm
  | kintrinsic => simp [evaluateKeyedItem] at h

theorem normalize_err_msg (cur : Option PRef) (it : Item) (s : JState)
    (m : String) (s1 : JState) (h : normalizeToInstanceAndNode cur it s = (EvalRes.err m, s1)) :
    m = compNoDomMsg ∨ m = keyedNoDomMsg := by
  cases it with
  | comp i =>
    unfold normalizeToInstanceAndNode at h
    dsimp only at h
    cases hg : getInst s i with
    | none =>
      rw [hg] at h
      simp only [Prod.mk.injEq, EvalRes.err.injEq] at h
      exact Or.inl h.1.symm
    | some inst =>
      rw [hg] at h
      dsimp only at h
      cases hd : inst.domRoot with
      | none =>
        rw [hd] at h
        simp only [Prod.mk.injEq, EvalRes.err.injEq] at h
        exact Or.inl h.1.symm
      | some n =>
        rw [hd] at h
        simp at h
  | keyed k d => exact Or.inr (evaluateKeyedItem_err_msg cur k d s m s1 h)
  | nodeRef n => simp [normalizeToInstanceAndNode] at h
  | prim v => simp [normalizeToInstanceAndNode] at h

theorem renderListLoop_err_msg (cur : Option PRef) (l : List Item) :
    ∀ (s : JState) (m : String), (renderListLoop cur l s).2 = some m →
      m = compNoDomMsg ∨ m = keyedNoDomMsg := by
  induction l with
  | nil => intro s m h; simp [renderListLoop] at h
  | cons it rest ih =>
    intro s m h
    unfold renderListLoop at h
    cases hn : normalizeToInstanceAndNode cur it s with
    | mk res s1 =>
      rw [hn] at h
      cases res with
      | err mm =>
        dsimp at h
        exact (Option.some.injEq mm m ▸ h : mm = m) ▸ normalize_err_msg cur it s mm s1 hn
      | ok instOpt n =>
        cases instOpt with
        | some i =>
          dsimp at h
          exact ih _ m h
        | none =>
          dsimp at h
          exact ih _ m h

theorem step4Walk_err_msg (cur : Option PRef) (ob : List (Nat × (Option Nat × Nat)))
    (l : List (Nat × KDesc)) :
    ∀ (s : JState) (ref : Option Nat) (nc : List Nat) (m : String),
      (step4Walk cur ob l s ref nc).2.2 = some m → m = keyedNoDomMsg := by
  induction l with
  | nil => intro s ref nc m h; simp [step4Walk] at h
  | cons kd rest ih =>
    intro s ref nc m h
    obtain ⟨k, d⟩ := kd
    unfold step4Walk at h
    cases hg : assocGet ob k with
    | some entry =>
      rw [hg] at h
      cases entry.1 with
      | some i =>
        dsimp at h
        exact ih _ _ _ m h
      | none =>
        dsimp at h
        exact ih _ _ _ m h
    | none =>
      rw [hg] at h
      cases he : evaluateKeyedItem cur k d s with
      | mk res s1 =>
        rw [he] at h
        cases res with
        | err mm =>
          dsimp at h
          exact (Option.some.injEq mm m ▸ h : mm = m) ▸
            evaluateKeyedItem_err_msg cur k d s mm s1 he
        | ok instOpt n =>
          cases instOpt with
          | some i =>
            dsimp at h
            exact ih _ _ _ m h
          | none =>
            dsimp at h
            exact ih _ _ _ m h

/-- C6: evaluating a reactive array child throws the fixed
"Cannot mix keyed and non-keyed children in the same array" error exactly
when the flattened result contains at least one keyed and at least one
non-keyed item; an all-keyed or all-non-keyed (or empty) array never
produces this error, on the initial render or on any re-run. -/
theorem mixed_keyed_error_iff (cur : Option PRef) (xs : List CTree) (s : JState) :
    (rcUpdate cur (CTree.arr xs) s).2 = some mixMsg
  ↔ hasKeyedItems (flattenTrees xs) = true ∧ allKeyedItems (flattenTrees xs) = false := by
  unfold rcUpdate
  dsimp only
  by_cases hk : hasKeyedItems (flattenTrees xs) = true
  · by_cases ha : allKeyedItems (flattenTrees xs) = true
    · rw [if_neg (by simp [hk, ha]), if_neg (by simp [ha])]
      cases hr : (step4Walk cur
          (step3Remove ((flattenTrees xs).filterMap asKeyed |>.map (fun kd => kd.1))
            (step1b (step0RemoveUnkeyed (cleanupPhase s)) (step1a (step0RemoveUnkeyed (cleanupPhase s))))
            (step0RemoveUnkeyed (cleanupPhase s))).1
          ((flattenTrees xs).filterMap asKeyed).reverse
          (step3Remove ((flattenTrees xs).filterMap asKeyed |>.map (fun kd => kd.1))
            (step1b (step0RemoveUnkeyed (cleanupPhase s)) (step1a (step0RemoveUnkeyed (cleanupPhase s))))
            (step0RemoveUnkeyed (cleanupPhase s))).2 none []).2.2 with
      | some m =>
        dsimp only
        constructor
        · intro hcontr
          have hm : m = keyedNoDomMsg := step4Walk_err_msg cur _ _ _ _ _ m hr
          rw [hm] at hcontr
          exact absurd (Option.some.injEq _ _ ▸ hcontr) (by decide)
        · intro hrhs
          exact absurd ha (by simp [hrhs.2])
      | none =>
        dsimp only
        constructor
        · intro hcontr; cases hcontr
        · intro hrhs; exact absurd ha (by simp [hrhs.2])
    · rw [if_pos (by simp [hk]; simpa using ha)]
      constructor
      · intro _; exact ⟨hk, by simpa using ha⟩
      · intro _; rfl
  · have hkf : hasKeyedItems (flattenTrees xs) = false := by simpa using hk
    by_cases ha : allKeyedItems (flattenTrees xs) = true
    · rw [if_neg (by simp [hkf]), if_neg (by simp [ha])]
      cases hr : (step4Walk cur
          (step3Remove ((flattenTrees xs).filterMap asKeyed |>.map (fun kd => kd.1))
            (step1b (step0RemoveUnkeyed (cleanupPhase s)) (step1a (step0RemoveUnkeyed (cleanupPhase s))))
            (step0RemoveUnkeyed (cleanupPhase s))).1
          ((flattenTrees xs).filterMap asKeyed).reverse
          (step3Remove ((flattenTrees xs).filterMap asKeyed |>.map (fun kd => kd.1))
            (step1b (step0RemoveUnkeyed (cleanupPhase s)) (step1a (step0RemoveUnkeyed (cleanupPhase s))))
            (step0RemoveUnkeyed (cleanupPhase s))).2 none []).2.2 with
      | some m =>
        dsimp only
        constructor
        · intro hcontr
          have hm : m = keyedNoDomMsg := step4Walk_err_msg cur _ _ _ _ _ m hr
          rw [hm] at hcontr
          exact absurd (Option.some.injEq _ _ ▸ hcontr) (by decide)
        · intro hrhs; exact absurd hrhs.1 (by simp [hkf])
      | none =>
        dsimp only
        constructor
        · intro hcontr; cases hcontr
        · intro hrhs; exact absurd hrhs.1 (by simp [hkf])
    · have haf : allKeyedItems (flattenTrees xs) = false := by simpa using ha
      rw [if_neg (by simp [hkf]), if_pos (by simp [haf])]
      constructor
      · intro hcontr
        rcases renderListLoop_err_msg cur (flattenTrees xs) _ mixMsg hcontr with h1 | h1 <;>
          exact absurd h1 (by decide)
      · intro hrhs; exact absurd hrhs.1 (by simp [hkf])

theorem assocGet_assocSet {α β : Type} [DecidableEq α] (l : List (α × β)) (a x : α) (b : β) :
    assocGet (assocSet l a b) x = if a = x then some b else assocGet l x := by
  induction l with
  | nil => by_cases h : a = x <;> simp [assocSet, assocGet, h]
  | cons hd tl ih =>
    obtain ⟨k, v⟩ := hd
    by_cases h1 : k = a
    · subst h1
      by_cases h2 : k = x <;> simp [assocSet, assocGet, h2]
    · have e1 : assocSet ((k, v) :: tl) a b = (k, v) :: assocSet tl a b := by
        simp [assocSet, h1]
      rw [e1]
      by_cases h3 : k = x
      · subst h3
        have h2 : ¬ a = k := fun he => h1 he.symm
        simp [assocGet, h2]
      · simp [assocGet, h3, ih]

theorem newComponentInst_rcChildren (parent : Option PRef) (s : JState) :
    (newComponentInst parent s).2.rcChildren = s.rcChildren := by
  unfold newComponentInst
  dsimp only
  cases parent with
  | none => rfl
  | some pr =>
    cases pr with
    | rchild => rfl
    | comp j =>
      dsimp only
      split <;> rfl

theorem evaluateKeyedItem_rcChildren (cur : Option PRef) (k : Nat) (d : KDesc) (s : JState) :
    (evaluateKeyedItem cur k d s).2.rcChildren = s.rcChildren := by
  cases d with
  | kcomp b =>
    cases b with
    | true =>
      unfold evaluateKeyedItem
      dsimp only
      split <;> simp [setInst, newComponentInst_rcChildren]
    | false =>
      unfold evaluateKeyedItem
      dsimp only
      exact newComponentInst_rcChildren cur s
  | kintrinsic => rfl

theorem normalize_rcChildren (cur : Option PRef) (it : Item) (s : JState) :
    (normalizeToInstanceAndNode cur it s).2.rcChildren = s.rcChildren := by
  cases it with
  | comp i =>
    unfold normalizeToInstanceAndNode
    dsimp only
    split
    · split <;> rfl
    · rfl
  | keyed k d => exact evaluateKeyedItem_rcChildren cur k d s
  | nodeRef n => rfl
  | prim v => rfl

theorem callMount_rcChildren (i : Nat) (s : JState) :
    (callMount i s).rcChildren = s.rcChildren := by
  unfold callMount
  dsimp only
  split <;> rfl

/-- C7: the `ReactiveComponent` constructor never registers the new
component into a `ReactiveChild` parent's children set (nor anyone
else's), while a `ReactiveComponent` parent receives it during
construction; a reactive child's children set receives an instance only
through the explicit add after a successful single-item evaluation
(yielding exactly that instance), and an evaluation that throws the
mixed-children error leaves the set empty. -/
theorem component_registration_policy (s : JState) (j : Nat) (cur : Option PRef)
    (it : Item) (i n : Nat) (s1 : JState) (xs : List CTree) :
    ((∀ a, s.nextInst ∉ childrenOf s a) →
        (newComponentInst (some PRef.rchild) s).2.rcChildren = s.rcChildren
      ∧ ∀ a, (newComponentInst (some PRef.rchild) s).1
              ∉ childrenOf (newComponentInst (some PRef.rchild) s).2 a)
  ∧ (∀ pj, getInst s j = some pj →
        (newComponentInst (some (PRef.comp j)) s).1
          ∈ childrenOf (newComponentInst (some (PRef.comp j)) s).2 j)
  ∧ (normalizeToInstanceAndNode cur it (cleanupPhase s) = (EvalRes.ok (some i) n, s1) →
        (rcUpdate cur (CTree.leaf it) s).1.rcChildren = [i])
  ∧ (hasKeyedItems (flattenTrees xs) = true → allKeyedItems (flattenTrees xs) = false →
        (rcUpdate cur (CTree.arr xs) s).1.rcChildren = []) := by
  refine ⟨?_, ?_, ?_, ?_⟩
  · intro h
    refine ⟨rfl, ?_⟩
    intro a
    show s.nextInst ∉ childrenOf (newComponentInst (some PRef.rchild) s).2 a
    unfold newComponentInst
    dsimp only
    unfold childrenOf getInst
    rw [assocGet_assocSet]
    by_cases ha : s.nextInst = a
    · rw [if_pos ha]
      simp
    · rw [if_neg ha]
      exact h a
  · intro pj hpj
    unfold newComponentInst
    dsimp only
    split
    · rename_i pj2 hg
      unfold childrenOf getInst setInst
      dsimp only
      rw [assocGet_assocSet_self]
      simp
    · rename_i hg
      exfalso
      unfold getInst at hg
      dsimp only at hg
      rw [assocGet_assocSet] at hg
      by_cases hj : s.nextInst = j
      · rw [if_pos hj] at hg
        cases hg
      · rw [if_neg hj] at hg
        unfold getInst at hpj
        rw [hpj] at hg
        cases hg
  · intro heq
    unfold rcUpdate
    dsimp only
    rw [heq]
    dsimp only
    have h1 : s1.rcChildren = [] := by
      have h2 := normalize_rcChildren cur it (cleanupPhase s)
      rw [heq] at h2
      exact h2
    rw [callMount_rcChildren]
    show s1.rcChildren ++ [i] = [i]
    rw [h1]
    rfl
  · intro hk ha
    unfold rcUpdate
    dsimp only
    rw [if_pos (by simp [hk, ha])]
    rfl

/-- Witness for C7 at concrete inputs: a component built under the
reactive-child scope registers nowhere at construction; one built under
component 0 of `c1st` lands in its children; the single-component update
of `c8st` tracks exactly the produced instance 0; a mixed array leaves
the children set empty. -/
theorem component_registration_policy_witness :
    ((newComponentInst (some PRef.rchild) c8st).2.rcChildren = c8st.rcChildren
      ∧ (newComponentInst (some PRef.rchild) c8st).1
          ∉ childrenOf (newComponentInst (some PRef.rchild) c8st).2 0)
  ∧ (newComponentInst (some (PRef.comp 0)) c1st).1
      ∈ childrenOf (newComponentInst (some (PRef.comp 0)) c1st).2 0
  ∧ (rcUpdate (some PRef.rchild) (CTree.leaf (Item.keyed 1 (KDesc.kcomp true))) c8st).1.rcChildren
      = [0]
  ∧ (rcUpdate (some PRef.rchild)
      (CTree.arr [CTree.leaf (Item.keyed 1 KDesc.kintrinsic), CTree.leaf (Item.prim 0)])
      c8st).1.rcChildren = [] := by
  have h1 := (component_registration_policy c8st 0 (some PRef.rchild)
    (Item.keyed 1 (KDesc.kcomp true)) 0 8
    (normalizeToInstanceAndNode (some PRef.rchild) (Item.keyed 1 (KDesc.kcomp true))
      (cleanupPhase c8st)).2
    [CTree.leaf (Item.keyed 1 KDesc.kintrinsic), CTree.leaf (Item.prim 0)])
  have ha := h1.1 (by intro a; simp [childrenOf, getInst, c8st, assocGet])
  have hb := (component_registration_policy c1st 0 (some PRef.rchild)
    (Item.keyed 1 (KDesc.kcomp true)) 0 8
    (normalizeToInstanceAndNode (some PRef.rchild) (Item.keyed 1 (KDesc.kcomp true))
      (cleanupPhase c1st)).2 []).2.1 c1inst (by decide)
  exact ⟨⟨ha.1, ha.2 0⟩, hb, h1.2.2.1 (by decide), h1.2.2.2 (by decide) (by decide)⟩

theorem disposedIfPresent_setInst (s : JState) (j : Nat) (rec : InstSt) (i : Nat)
    (h : disposedIfPresent s i) (hj : j = i → rec.disposed = true) :
    disposedIfPresent (setInst s j rec) i := by
  intro inst hget
  unfold setInst getInst at hget
  dsimp only at hget
  rw [assocGet_assocSet] at hget
  by_cases e : j = i
  · rw [if_pos e] at hget
    cases hget
    exact hj e
  · rw [if_neg e] at hget
    exact h inst hget

theorem disposedIfPresent_setInst_keep (s : JState) (j : Nat) (fin rec : InstSt) (i : Nat)
    (h : disposedIfPresent s i) (hfin : getInst s j = some fin)
    (hrec : rec.disposed = fin.disposed) :
    disposedIfPresent (setInst s j rec) i := by
  apply disposedIfPresent_setInst s j rec i h
  intro e
  rw [hrec]
  exact h fin (e ▸ hfin)

theorem disposedIfPresent_setInst_self (s : JState) (i : Nat) (rec : InstSt)
    (hrec : rec.disposed = true) : disposedIfPresent (setInst s i rec) i := by
  intro inst hget
  unfold setInst getInst at hget
  dsimp only at hget
  rw [assocGet_assocSet_self] at hget
  cases hget
  exact hrec

theorem disposedIfPresent_upd_logs (X : JState) (l1 l2 : List Nat) (i : Nat)
    (h : disposedIfPresent X i) :
    disposedIfPresent { X with cleanupRunLog := l1, autoDisposeLog := l2 } i :=
  fun inst hg => h inst hg

theorem disposedIfPresent_domRemove (n : Nat) (X : JState) (i : Nat)
    (h : disposedIfPresent X i) : disposedIfPresent (domRemoveNode n X) i :=
  fun inst hg => h inst hg

theorem disposedIfPresent_rcFilter (X : JState) (l : List Nat) (i : Nat)
    (h : disposedIfPresent X i) : disposedIfPresent { X with rcChildren := l } i :=
  fun inst hg => h inst hg

theorem disposedIfPresent_detachDomRoot (o : Option Nat) (X : JState) (i : Nat)
    (h : disposedIfPresent X i) : disposedIfPresent (detachDomRoot o X) i := by
  unfold detachDomRoot
  cases o with
  | none => exact h
  | some n =>
    dsimp only
    by_cases hc : n ∈ X.contents
    · rw [if_pos hc]
      exact disposedIfPresent_domRemove n X i h
    · rw [if_neg hc]
      exact h

theorem disposedIfPresent_removeChild (pr : Option PRef) (k i : Nat) (s : JState)
    (h : disposedIfPresent s i) : disposedIfPresent (removeChildFromParent pr k s) i := by
  unfold removeChildFromParent
  cases pr with
  | none => exact h
  | some p =>
    cases p with
    | rchild =>
      dsimp only
      exact disposedIfPresent_rcFilter s _ i h
    | comp j =>
      dsimp only
      cases hg : getInst s j with
      | none => exact h
      | some pj =>
        exact disposedIfPresent_setInst s j _ i h (fun e => h pj (e ▸ hg))

theorem disposeInst_preserves_disposed (fuel : Nat) :
    ∀ (j : Nat) (s : JState) (i : Nat), disposedIfPresent s i →
      disposedIfPresent (disposeInst fuel j s) i := by
  induction fuel with
  | zero => intro j s i h; exact h
  | succ fuel ih =>
    intro j s i h
    unfold disposeInst
    cases hg : getInst s j with
    | none => exact h
    | some inst =>
      dsimp only
      by_cases hd : inst.disposed = true
      · rw [if_pos hd]
        exact h
      · rw [if_neg hd]
        have h2 : ∀ (l : List Nat) (t : JState), disposedIfPresent t i →
            disposedIfPresent (l.foldl (fun acc c => disposeInst fuel c acc) t) i := by
          intro l
          induction l with
          | nil => intro t ht; exact ht
          | cons c rest ihl => intro t ht; exact ihl _ (ih c t i ht)
        have h3 : disposedIfPresent (List.foldl (fun acc c => disposeInst fuel c acc)
            (setInst s j { inst with disposed := true }) inst.children) i :=
          h2 _ _ (disposedIfPresent_setInst s j _ i h (fun _ => rfl))
        split <;>
          first
          | exact h3
          | (rename_i cur hg2
             split <;>
               first
               | (apply disposedIfPresent_detachDomRoot
                  apply disposedIfPresent_removeChild
                  apply disposedIfPresent_upd_logs
                  exact disposedIfPresent_setInst_keep _ _ cur _ i h3 hg2 rfl)
               | (rename_i fin hg3
                  apply disposedIfPresent_setInst_keep _ _ fin _ i ?_ hg3 (by rfl)
                  apply disposedIfPresent_detachDomRoot
                  apply disposedIfPresent_removeChild
                  apply disposedIfPresent_upd_logs
                  exact disposedIfPresent_setInst_keep _ _ cur _ i h3 hg2 rfl))

theorem disposeInst_marks (fuel i : Nat) (s : JState) :
    disposedIfPresent (disposeInst (fuel + 1) i s) i := by
  unfold disposeInst
  cases hg : getInst s i with
  | none =>
    intro inst hget
    rw [hget] at hg
    cases hg
  | some inst =>
    dsimp only
    by_cases hd : inst.disposed = true
    · rw [if_pos hd]
      intro inst2 hget
      rw [hget] at hg
      cases hg
      exact hd
    · rw [if_neg hd]
      have h2 : ∀ (l : List Nat) (t : JState), disposedIfPresent t i →
          disposedIfPresent (l.foldl (fun acc c => disposeInst fuel c acc) t) i := by
        intro l
        induction l with
        | nil => intro t ht; exact ht
        | cons c rest ihl =>
          intro t ht
          exact ihl _ (disposeInst_preserves_disposed fuel c t i ht)
      have h3 : disposedIfPresent (List.foldl (fun acc c => disposeInst fuel c acc)
          (setInst s i { inst with disposed := true }) inst.children) i :=
        h2 _ _ (disposedIfPresent_setInst_self s i _ rfl)
      split <;>
        first
        | exact h3
        | (rename_i cur hg2
           split <;>
             first
             | (rename_i fin hg3
                apply disposedIfPresent_setInst_keep _ _ fin _ i ?_ hg3 (by rfl)
                apply disposedIfPresent_detachDomRoot
                apply disposedIfPresent_removeChild
                apply disposedIfPresent_upd_logs
                exact disposedIfPresent_setInst_keep _ _ cur _ i h3 hg2 rfl)
             | (apply disposedIfPresent_detachDomRoot
                apply disposedIfPresent_removeChild
                apply disposedIfPresent_upd_logs
                exact disposedIfPresent_setInst_keep _ _ cur _ i h3 hg2 rfl))

theorem disposeInst_idem (fuel i : Nat) (s : JState) :
    disposeInst fuel i (disposeInst fuel i s) = disposeInst fuel i s := by
  cases fuel with
  | zero => rfl
  | succ fuel =>
    have hm := disposeInst_marks fuel i s
    cases hD : getInst (disposeInst (fuel + 1) i s) i with
    | none =>
      conv_lhs => rw [disposeInst]
      rw [hD]
    | some inst =>
      have hdi := hm inst hD
      conv_lhs => rw [disposeInst]
      rw [hD]
      dsimp only
      rw [if_pos hdi]

theorem clearFold_fields (sc : Nat) (l : List PKey) (t : RState) :
    ((l.foldl (fun acc p =>
      match assocGet acc.listeners p with
      | some ls => { acc with listeners := assocSet acc.listeners p (ls.filter (fun x => x ≠ sc)) }
      | none => acc) t)).cleanupSlot = t.cleanupSlot ∧
    ((l.foldl (fun acc p =>
      match assocGet acc.listeners p with
      | some ls => { acc with listeners := assocSet acc.listeners p (ls.filter (fun x => x ≠ sc)) }
      | none => acc) t)).cleanupLog = t.cleanupLog := by
  induction l generalizing t with
  | nil => exact ⟨rfl, rfl⟩
  | cons p rest ih =>
    dsimp only [List.foldl]
    cases hg : assocGet t.listeners p with
    | some ls =>
      dsimp only
      exact ih { t with listeners := assocSet t.listeners p (ls.filter (fun x => x ≠ sc)) }
    | none =>
      dsimp only
      exact ih t

theorem clearScopeSubscriptions_fields (sc : Nat) (s : RState) :
    (clearScopeSubscriptions sc s).cleanupSlot = s.cleanupSlot ∧
    (clearScopeSubscriptions sc s).cleanupLog = s.cleanupLog := by
  unfold clearScopeSubscriptions
  exact clearFold_fields sc (getSubs s sc) s

theorem autorunDispose_log (sc c : Nat) (s : RState)
    (h : assocGet s.cleanupSlot sc = some c) :
    (autorunDispose sc s).cleanupLog = s.cleanupLog ++ [c] ∧
    (autorunDispose sc s).cleanupSlot = s.cleanupSlot := by
  unfold autorunDispose
  rw [h]
  exact ⟨(clearScopeSubscriptions_fields sc _).2, (clearScopeSubscriptions_fields sc _).1⟩

/-- C10: the disposer returned by `autorun` runs `scope.cleanup?.()` without
resetting the slot, so invoking it twice while a cleanup is registered runs
that cleanup twice — not idempotent — whereas `Instance.dispose` is
idempotent: a second dispose of the same instance changes nothing. -/
theorem autorun_disposer_reruns_cleanup (sc c : Nat) (s : RState)
    (h : assocGet s.cleanupSlot sc = some c) :
    (autorunDispose sc (autorunDispose sc s)).cleanupLog = s.cleanupLog ++ [c, c] ∧
    ∀ (fuel i : Nat) (js : JState),
      disposeInst fuel i (disposeInst fuel i js) = disposeInst fuel i js := by
  constructor
  · have h1 := autorunDispose_log sc c s h
    have hslot : assocGet (autorunDispose sc s).cleanupSlot sc = some c := by
      rw [h1.2]; exact h
    have h2 := autorunDispose_log sc c (autorunDispose sc s) hslot
    rw [h2.1, h1.1, List.append_assoc]
    rfl
  · exact fun fuel i js => disposeInst_idem fuel i js

theorem autorun_disposer_reruns_cleanup_witness :
    assocGet c10state.cleanupSlot 0 = some 9 ∧
    ((autorunDispose 0 (autorunDispose 0 c10state)).cleanupLog =
        c10state.cleanupLog ++ [9, 9] ∧
      ∀ (fuel i : Nat) (js : JState),
        disposeInst fuel i (disposeInst fuel i js) = disposeInst fuel i js) :=
  ⟨by decide, autorun_disposer_reruns_cleanup 0 9 c10state (by decide)⟩

/-- C8 (amended): the jsx.ts single-result path has no skip — even with no
tracked instances it always issues `clearContent` then `insertBeforeRef`
for the produced node; the skip-redundant-update exists only in the
part_001 revision, where a single result identical to the shown
`singleNode` leaves the state completely unchanged. -/
theorem single_update_skip_only_in_part001 (cur : Option PRef) (n : Nat) (s : JState)
    (h1 : s.rcChildren = []) (t : P1State)
    (h2 : t.mode = P1Mode.modeSingle) (h3 : t.singleNode = some n) :
    ((rcUpdate cur (CTree.leaf (Item.nodeRef n)) s).1.regionOps
        = s.regionOps ++ [ROp.clearContentOp, ROp.insertOp n]
      ∧ (rcUpdate cur (CTree.leaf (Item.nodeRef n)) s).2 = none)
    ∧ p1Update (P1Tree.pleaf (P1Leaf.pnode n)) t = t := by
  refine ⟨⟨?_, ?_⟩, ?_⟩
  · simp [rcUpdate, cleanupPhase, h1, normalizeToInstanceAndNode,
      regionClearContent, regionInsertBeforeRef, domInsertBefore]
  · simp [rcUpdate, cleanupPhase, h1, normalizeToInstanceAndNode]
  · unfold p1Update
    dsimp only
    rw [if_pos (show t.mode = P1Mode.modeSingle ∧ t.singleNode = some n from ⟨h2, h3⟩)]

theorem single_update_skip_only_in_part001_witness :
    c8st.rcChildren = [] ∧ c8p1.mode = P1Mode.modeSingle
  ∧ c8p1.singleNode = some 7
  ∧ (((rcUpdate none (CTree.leaf (Item.nodeRef 7)) c8st).1.regionOps
        = c8st.regionOps ++ [ROp.clearContentOp, ROp.insertOp 7]
      ∧ (rcUpdate none (CTree.leaf (Item.nodeRef 7)) c8st).2 = none)
    ∧ p1Update (P1Tree.pleaf (P1Leaf.pnode 7)) c8p1 = c8p1) :=
  ⟨rfl, rfl, rfl,
    single_update_skip_only_in_part001 none 7 c8st rfl c8p1 rfl rfl⟩
